import Mathlib

/-
  Verification development for the template-engine core described in spec.md.
  The repository ships only its package docstring and the extension test suite;
  the core modules (lexer, parser, compiler, runtime, ext) are absent, so the
  data model and operations below are modelled from the specification text,
  kept faithful to the behaviours pinned down by the shipped tests.
-/

/-! ## Escaped-string wrapper and entity escaping (spec section 3, "Escaped-string wrapper") -/

/-- Modelled from the spec: entity escaping of a single character, as performed by
the missing Markup/escape utilities (jinja2.utils.escape is absent from src).
The five HTML-significant characters map to entities; everything else is kept. -/
def escapeChar (c : Char) : String :=
  if c = '&' then "&amp;"
  else if c = '<' then "&lt;"
  else if c = '>' then "&gt;"
  else if c = Char.ofNat 34 then "&#34;"
  else if c = Char.ofNat 39 then "&#39;"
  else String.singleton c

/-- Modelled from the spec: entity-escaping of a whole string (the missing
escape function applied to plain text). -/
def escapeStr (s : String) : String :=
  String.join (s.data.map escapeChar)

/-- Modelled from the spec: a rendered value is either a plain string or an
escaped-string wrapper ("a string value tagged as already safe to emit
verbatim", spec section 3); the Markup class itself is absent from src. -/
inductive Value where
  | str : String → Value
  | markup : String → Value
deriving DecidableEq

/-- The text carried by a value. -/
def Value.payload : Value → String
  | .str s => s
  | .markup s => s

/-- Modelled from the spec: the escape operation on values.  A plain string is
entity-escaped and wrapped; a wrapper is already safe and is returned
unchanged ("operations must never silently double-escape", spec section 3). -/
def escape : Value → Value
  | .str s => .markup (escapeStr s)
  | .markup s => .markup s

/-- Output site with autoescape statically on: emit the escaped payload. -/
def outputOn (v : Value) : String := (escape v).payload

/-- Output site with autoescape statically off: emit the payload verbatim. -/
def outputOff (v : Value) : String := v.payload

/-- Output site in a volatile region: the escaping decision is taken at render
time from the runtime toggle (spec section 4.4). -/
def outputVolatile (toggle : Bool) (v : Value) : String :=
  if toggle then outputOn v else outputOff v

/-- Iterate a function n times (used to speak about arbitrarily long upstream
filter/wrapper chains). -/
def applyN (f : α → α) : Nat → α → α
  | 0, a => a
  | n + 1, a => applyN f n (f a)

/-- Double quote as a string, written via its code point. -/
def quoteStr (s : String) : String :=
  String.singleton (Char.ofNat 34) ++ s ++ String.singleton (Char.ofNat 34)

/-- Modelled from the spec: the xmlattr filter (jinja2.filters.do_xmlattr is
absent from src).  It entity-escapes keys and values, renders space-prefixed
key="value" pairs, and tags the result as safe only when the evaluation
context has escaping enabled (spec section 3 invariant on wrappers). -/
def xmlattr (autoescapeCtx : Bool) (attrs : List (String × String)) : Value :=
  let rv := String.join (attrs.map fun p =>
    " " ++ escapeStr p.1 ++ "=" ++ quoteStr (escapeStr p.2))
  if autoescapeCtx then .markup rv else .str rv

theorem applyN_escape_markup (m : String) :
    ∀ n, applyN escape n (Value.markup m) = Value.markup m := by
  intro n
  induction n with
  | zero => rfl
  | succ k ih => simpa [applyN, escape] using ih

theorem applyN_escape_str (s : String) :
    ∀ n, applyN escape n (Value.str s) = Value.str s ∨
      applyN escape n (Value.str s) = Value.markup (escapeStr s) := by
  intro n
  cases n with
  | zero => exact Or.inl rfl
  | succ k =>
      refine Or.inr ?_
      show applyN escape k (escape (Value.str s)) = Value.markup (escapeStr s)
      simpa [escape] using applyN_escape_markup (escapeStr s) k

/-- C1: a string value rendered through an autoescape-on output site is
entity-escaped exactly once; any number of upstream escape applications or
safe-string wrappers (for example the xmlattr-then-escape pipeline) never
produces doubled entity escaping. -/
theorem autoescape_on_escapes_exactly_once :
    (∀ (s : String) (n : Nat), outputOn (applyN escape n (Value.str s)) = escapeStr s)
    ∧ (∀ (v : Value) (n : Nat), outputOn (applyN escape n v) = outputOn v)
    ∧ outputOn (escape (xmlattr true [("foo", "<test>")]))
        = " foo=" ++ quoteStr "&lt;test&gt;" := by
  refine ⟨?_, ?_, ?_⟩
  · intro s n
    rcases applyN_escape_str s n with h | h <;> (rw [h]; try rfl)
  · intro v n
    cases v with
    | str s =>
        rcases applyN_escape_str s n with h | h <;> (rw [h]; try rfl)
    | markup m =>
        rw [applyN_escape_markup m n]
  · decide

/-! ## Three-valued escaping state and compiled output sites (spec sections 4.4 and 9) -/

/-- Modelled from the spec: the three-valued escaping resolution threaded
through compilation, "a tagged enum StaticOn / StaticOff / RuntimeResolved"
(spec section 9); the compiler module is absent from src. -/
inductive EscMode where
  | staticOn
  | staticOff
  | runtimeResolved
deriving DecidableEq

/-- Modelled from the spec: code the compiler emits for one output site under
each escaping mode.  Static modes decide once at compile time; the volatile
mode emits a runtime check consulting the toggle at every output site
(spec section 4.4). -/
def compileOutput : EscMode → (Bool → Value → String)
  | .staticOn => fun _ v => outputOn v
  | .staticOff => fun _ v => outputOff v
  | .runtimeResolved => fun toggle v => if toggle then outputOn v else outputOff v

/-- C2: a volatile autoescape region compiles to a runtime check at each
output site: the same compiled site renders escaped output when the toggle is
true and raw output when it is false, never escaping twice in either branch;
the xmlattr-then-escape pipeline of the volatile test renders single-escaped
under a true toggle and shows the explicit-filter escaping under a false one. -/
theorem volatile_site_decides_at_render_time :
    (∀ s : String, compileOutput .runtimeResolved true (Value.str s) = escapeStr s)
    ∧ (∀ s : String, compileOutput .runtimeResolved false (Value.str s) = s)
    ∧ (∀ (t : Bool) (v : Value),
        compileOutput .runtimeResolved t (escape (escape v))
          = compileOutput .runtimeResolved t (escape v))
    ∧ compileOutput .runtimeResolved true (escape (xmlattr true [("foo", "<test>")]))
        = " foo=" ++ quoteStr "&lt;test&gt;"
    ∧ compileOutput .runtimeResolved false (escape (xmlattr false [("foo", "<test>")]))
        = " foo=&#34;&amp;lt;test&amp;gt;&#34;" := by
  refine ⟨fun s => rfl, fun s => rfl, ?_, by decide, by decide⟩
  intro t v
  cases v <;> (cases t <;> rfl)

/-! ## Macro escaping is fixed at the definition site (spec sections 4.4 and 9) -/

/-- Modelled from the spec: resolving an escaping mode against the render-time
toggle; static modes ignore the toggle, the volatile mode consults it. -/
def resolveMode : EscMode → Bool → Bool
  | .staticOn, _ => true
  | .staticOff, _ => false
  | .runtimeResolved, t => t

/-- Modelled from the spec: one item of a compiled macro body, either literal
template data or an output site (the compiler module is absent from src). -/
inductive BodyItem where
  | lit (s : String)
  | outSite (v : Value)
deriving DecidableEq

/-- Modelled from the spec: rendering a macro body whose output sites were
compiled under the escaping mode in effect at the definition site
(spec section 4.4, macro closures). -/
def renderBody (defMode : EscMode) (toggle : Bool) : List BodyItem → String
  | [] => ""
  | .lit s :: r => s ++ renderBody defMode toggle r
  | .outSite v :: r => compileOutput defMode toggle v ++ renderBody defMode toggle r

/-- Modelled from the spec: the runtime macro-invocation wrapper; when the
active evaluation context has escaping enabled the macro result is tagged as
an already-safe wrapper, otherwise it stays a plain string. -/
def macroInvoke (ctxAutoescape : Bool) (body : String) : Value :=
  if ctxAutoescape then .markup body else .str body

/-- Runtime class of a value, as observed by the volatile-scoping test. -/
def className : Value → String
  | .str _ => "str"
  | .markup _ => "Markup"

/-- Modelled from the spec: a full macro call: the body renders under the
definition-site mode, the result is wrapped according to the evaluation
context active at the call, and the call-site output site emits it. -/
def callMacroAt (defMode callMode : EscMode) (toggle : Bool)
    (items : List BodyItem) : String :=
  compileOutput callMode toggle
    (macroInvoke (resolveMode callMode toggle) (renderBody defMode toggle items))

theorem renderBody_staticOff_ignores_toggle (items : List BodyItem) (t u : Bool) :
    renderBody .staticOff t items = renderBody .staticOff u items := by
  induction items with
  | nil => rfl
  | cons x r ih => cases x <;> simp [renderBody, compileOutput, ih]

/-- C9: a macro defined while autoescape is off emits its content unescaped
even when invoked at an autoescape-on call site (both for literal body data
and for an output site of an arbitrary plain string), while a macro defined
inside a volatile region yields a safe Markup value when the runtime toggle
is true and a plain str when it is false. -/
theorem macro_escaping_fixed_at_definition_site :
    (∀ toggle : Bool,
        callMacroAt .staticOff .staticOn toggle [.lit "<html>"] = "<html>")
    ∧ (∀ (toggle : Bool) (s : String),
        callMacroAt .staticOff .staticOn toggle [.outSite (.str s)] = s)
    ∧ (∀ items : List BodyItem, ∀ t : Bool,
        renderBody .staticOff t items = renderBody .staticOff true items)
    ∧ (∀ body : String,
        className (macroInvoke (resolveMode .runtimeResolved true) body) = "Markup"
        ∧ className (macroInvoke (resolveMode .runtimeResolved false) body) = "str") :=
  ⟨fun _ => rfl,
   fun _ s => by
     show Value.payload (Value.markup (s ++ "")) = s
     simp [Value.payload],
   fun items t => renderBody_staticOff_ignores_toggle items t true,
   fun _ => ⟨rfl, rfl⟩⟩

/-! ## The localization block tag: parsing and failure semantics (spec sections 4.2, 4.3, 7) -/

/-- Apostrophe as a string, written via its code point. -/
def aposStr : String := String.singleton (Char.ofNat 39)

/-- Modelled from the spec: the two parse/compile-time error kinds of the
error taxonomy, SyntaxError-kind and AssertionError-kind (spec section 7);
the exceptions module is absent from src. -/
inductive TransErr where
  | synErr (msg : String)
  | assertErr (msg : String)
deriving DecidableEq

/-- The phrase the nested-tag diagnostic must contain. -/
def cantBeNested : String := "can" ++ aposStr ++ "t be nested"

/-- Modelled from the spec: the dedicated cannot-nest diagnostic raised when a
localization block tag is nested directly inside itself (spec section 4.3). -/
def transNestMsg : String := "trans blocks " ++ cantBeNested

/-- Modelled from the spec: a token of the body of a localization block as the
extension parse hook sees it: literal data, a variable reference, a nested
opening of the same tag, a pluralize marker with an optional count-variable
argument, some other block tag, or the closing tag. -/
inductive TTok where
  | text (s : String)
  | varRef (n : String)
  | transBegin
  | pluralizeTag (arg : Option String)
  | otherTag (n : String)
  | endtrans
deriving DecidableEq

/-- A body token that is plain message material (literal data or a variable
reference). -/
def TTok.plain : TTok → Prop
  | .text _ => True
  | .varRef _ => True
  | _ => False

instance : DecidablePred TTok.plain := by
  intro t
  cases t <;> simp [TTok.plain] <;> infer_instance

/-- Modelled from the spec: one expression allowed on the right-hand side of a
variable binding in the tag head (a constant or a name lookup). -/
inductive TransExpr where
  | constE (s : String)
  | loadE (n : String)
deriving DecidableEq

/-- Modelled from the spec: the parsed head of a localization block tag: the
optional whitespace-trimming modifier and the declared variable bindings. -/
structure TransHead where
  trimmed : Option Bool
  vars : List (String × TransExpr)
deriving DecidableEq

/-- Modelled from the spec: collecting one part of the localization block body
until a pluralize marker or the closing tag.  A directly nested opening of
the same tag is the dedicated cannot-nest SyntaxError; any other block tag is
rejected as well; running out of tokens is an unterminated-block error. -/
def parse_trans_body : List TTok → Except TransErr (List TTok × List TTok)
  | [] => .error (.synErr "unexpected end of template while looking for endtrans")
  | .text s :: r =>
      match parse_trans_body r with
      | .ok p => .ok (.text s :: p.1, p.2)
      | .error e => .error e
  | .varRef n :: r =>
      match parse_trans_body r with
      | .ok p => .ok (.varRef n :: p.1, p.2)
      | .error e => .error e
  | .transBegin :: _ => .error (.synErr transNestMsg)
  | .otherTag n :: _ =>
      .error (.synErr ("control structures in translatable sections are not allowed; saw " ++ n))
  | .pluralizeTag a :: r => .ok ([], .pluralizeTag a :: r)
  | .endtrans :: r => .ok ([], .endtrans :: r)

/-- Modelled from the spec: the parsed localization node produced by the
extension parse hook. -/
structure TransNode where
  head : TransHead
  singular : List TTok
  plural : Option (String × List TTok)
deriving DecidableEq

/-- Modelled from the spec: validation of the pluralize count argument against
the variables declared by the tag head; an undeclared name is the
AssertionError-kind scope-consistency failure of spec section 7. -/
def checkPluralArg (declared : List String) : Option String → Except TransErr String
  | some n =>
      if n ∈ declared then .ok n
      else .error (.assertErr ("pluralize count variable " ++ n
          ++ " is not declared in the trans tag"))
  | none =>
      match declared with
      | d :: _ => .ok d
      | [] => .error (.assertErr "pluralize without variables")

/-- Modelled from the spec: the full parse of a localization block given its
parsed head and its body tokens (the i18n extension module is absent from
src); the closing tag must terminate each collected part. -/
def parse_trans (head : TransHead) (body : List TTok) : Except TransErr TransNode :=
  match parse_trans_body body with
  | .error e => .error e
  | .ok (sing, rest) =>
    match rest with
    | .pluralizeTag arg :: r2 =>
        match checkPluralArg (head.vars.map Prod.fst) arg with
        | .error e => .error e
        | .ok countVar =>
            match parse_trans_body r2 with
            | .error e => .error e
            | .ok (plur, rest2) =>
                match rest2 with
                | .endtrans :: _ => .ok ⟨head, sing, some (countVar, plur)⟩
                | _ => .error (.synErr "expected endtrans")
    | .endtrans :: _ => .ok ⟨head, sing, none⟩
    | _ => .error (.synErr "expected endtrans")

theorem parse_trans_body_nested (pre post : List TTok) (hpre : ∀ t ∈ pre, t.plain) :
    parse_trans_body (pre ++ TTok.transBegin :: post) = .error (.synErr transNestMsg) := by
  induction pre with
  | nil => rfl
  | cons x r ih =>
      have hx : x.plain := hpre x (by simp)
      have hr : ∀ t ∈ r, t.plain := fun t ht => hpre t (by simp [ht])
      cases x with
      | text s => simp [parse_trans_body, ih hr]
      | varRef n => simp [parse_trans_body, ih hr]
      | transBegin => exact absurd hx (by simp [TTok.plain])
      | pluralizeTag a => exact absurd hx (by simp [TTok.plain])
      | otherTag n => exact absurd hx (by simp [TTok.plain])
      | endtrans => exact absurd hx (by simp [TTok.plain])

/-- C3: a localization block tag nested directly inside itself fails at parse
time with the SyntaxError-kind cannot-nest error, whose message contains the
phrase "can-apostrophe-t be nested"; no parsed node is produced, so no render
can ever be attempted on such a source. -/
theorem nested_trans_fails_at_parse_time (head : TransHead) (pre post : List TTok)
    (hpre : ∀ t ∈ pre, t.plain) :
    parse_trans head (pre ++ TTok.transBegin :: post) = .error (.synErr transNestMsg)
    ∧ (∃ p q, transNestMsg = p ++ cantBeNested ++ q)
    ∧ ∀ node : TransNode,
        parse_trans head (pre ++ TTok.transBegin :: post) ≠ .ok node := by
  have hbody := parse_trans_body_nested pre post hpre
  refine ⟨by simp [parse_trans, hbody], ⟨"trans blocks ", "", by decide⟩, ?_⟩
  intro node h
  rw [parse_trans, hbody] at h
  exact Except.noConfusion h

/-- Witness for C3 at the token stream of the nested-trans test source. -/
theorem nested_trans_fails_witness :
    parse_trans ⟨none, []⟩ [TTok.text "foo", TTok.transBegin, TTok.endtrans, TTok.endtrans]
      = .error (.synErr transNestMsg) :=
  (nested_trans_fails_at_parse_time ⟨none, []⟩ [TTok.text "foo"]
    [TTok.endtrans, TTok.endtrans] (by decide)).1

theorem parse_trans_body_plain (pre rest : List TTok) (hpre : ∀ t ∈ pre, t.plain)
    (hstop : (∃ a r, rest = TTok.pluralizeTag a :: r) ∨ ∃ r, rest = TTok.endtrans :: r) :
    parse_trans_body (pre ++ rest) = .ok (pre, rest) := by
  induction pre with
  | nil =>
      rcases hstop with ⟨a, r, h⟩ | ⟨r, h⟩ <;> (subst h; rfl)
  | cons x r ih =>
      have hx : x.plain := hpre x (by simp)
      have hr : ∀ t ∈ r, t.plain := fun t ht => hpre t (by simp [ht])
      cases x with
      | text s => simp [parse_trans_body, ih hr]
      | varRef n => simp [parse_trans_body, ih hr]
      | transBegin => exact absurd hx (by simp [TTok.plain])
      | pluralizeTag a => exact absurd hx (by simp [TTok.plain])
      | otherTag n => exact absurd hx (by simp [TTok.plain])
      | endtrans => exact absurd hx (by simp [TTok.plain])

/-- C4: a pluralize count argument naming a variable not declared by the
enclosing trans tag makes the parse fail with the AssertionError-kind error,
and no parsed node (hence no compiled artifact) is produced for the source. -/
theorem undeclared_pluralize_count_fails (head : TransHead) (pre post : List TTok)
    (n : String) (hpre : ∀ t ∈ pre, t.plain)
    (hn : n ∉ head.vars.map Prod.fst) :
    parse_trans head (pre ++ TTok.pluralizeTag (some n) :: post)
      = .error (.assertErr ("pluralize count variable " ++ n
          ++ " is not declared in the trans tag"))
    ∧ ∀ node : TransNode,
        parse_trans head (pre ++ TTok.pluralizeTag (some n) :: post) ≠ .ok node := by
  have hbody := parse_trans_body_plain pre (TTok.pluralizeTag (some n) :: post) hpre
    (Or.inl ⟨some n, post, rfl⟩)
  have hmain : parse_trans head (pre ++ TTok.pluralizeTag (some n) :: post)
      = .error (.assertErr ("pluralize count variable " ++ n
          ++ " is not declared in the trans tag")) := by
    rw [parse_trans, hbody]
    simp [checkPluralArg, hn]
  refine ⟨hmain, ?_⟩
  intro node h
  rw [hmain] at h
  exact Except.noConfusion h

/-- Witness for C4 at the token stream of the complex-plural test source. -/
theorem undeclared_pluralize_count_witness :
    parse_trans ⟨none, [("foo", TransExpr.loadE "foo")]⟩
      [TTok.text "...", TTok.pluralizeTag (some "bar"), TTok.text "...", TTok.endtrans]
      = .error (.assertErr ("pluralize count variable bar"
          ++ " is not declared in the trans tag")) := by
  have h := (undeclared_pluralize_count_fails ⟨none, [("foo", TransExpr.loadE "foo")]⟩
    [TTok.text "..."] [TTok.text "...", TTok.endtrans] "bar"
    (by decide) (by decide)).1
  simpa using h

/-! ## Head of the localization tag: the trimmed modifier (spec section 4.2; i18n extension) -/

/-- Modelled from the spec: a token of the localization tag head as produced by
the lexer (the lexer module is absent from src): a name, the assignment
operator, a string constant, or a comma. -/
inductive HTok where
  | nameTok (s : String)
  | assignTok
  | strTok (s : String)
  | commaTok
deriving DecidableEq

/-- Modelled from the spec: the head-parsing loop of the localization tag.  A
name directly followed by the assignment operator always binds a variable; a
first bare trimmed/notrimmed name is the whitespace-trimming modifier;
any other bare name binds itself; variables after the first are separated by
commas. -/
def parse_trans_head (fuel : Nat) (trimmed : Option Bool)
    (vars : List (String × TransExpr)) (sawVar : Bool) (toks : List HTok) :
    Except TransErr TransHead :=
  match fuel, toks with
  | _, [] => .ok ⟨trimmed, vars.reverse⟩
  | 0, _ => .error (.synErr "trans tag head parse ran out of fuel")
  | f + 1, toks =>
      let afterComma : Except TransErr (List HTok) :=
        if sawVar then
          match toks with
          | .commaTok :: rest => .ok rest
          | _ => .error (.synErr "expected comma between trans variables")
        else .ok toks
      match afterComma with
      | .error e => .error e
      | .ok toks2 =>
        match toks2 with
        | .nameTok n :: .assignTok :: .strTok s :: rest2 =>
            parse_trans_head f trimmed ((n, .constE s) :: vars) true rest2
        | .nameTok n :: .assignTok :: .nameTok m :: rest2 =>
            parse_trans_head f trimmed ((n, .loadE m) :: vars) true rest2
        | .nameTok _ :: .assignTok :: _ =>
            .error (.synErr "expected expression after assignment in trans tag")
        | .nameTok n :: rest =>
            if trimmed = none ∧ (n = "trimmed" ∨ n = "notrimmed") then
              parse_trans_head f (some (n = "trimmed")) vars sawVar rest
            else
              parse_trans_head f trimmed ((n, .loadE n) :: vars) true rest
        | _ => .error (.synErr "expected name in trans tag head")

/-- Entry point for parsing the localization tag head. -/
def parseTransHead (toks : List HTok) : Except TransErr TransHead :=
  parse_trans_head (toks.length + 1) none [] false toks

/-- Whitespace characters recognised by message trimming. -/
def isWS (c : Char) : Bool :=
  c == ' ' || c == Char.ofNat 10 || c == Char.ofNat 9 || c == Char.ofNat 13

/-- Splits a character list into maximal whitespace-free runs. -/
def wordsAux : List Char → List Char → List String
  | cur, [] => if cur.isEmpty then [] else [String.mk cur.reverse]
  | cur, c :: r =>
      if isWS c then
        if cur.isEmpty then wordsAux [] r
        else String.mk cur.reverse :: wordsAux [] r
      else wordsAux (c :: cur) r

/-- Modelled from the spec: whitespace trimming of a translatable message:
leading and trailing whitespace removed, every internal whitespace run
(newlines included) collapsed to one space (the i18n extension is absent
from src; behaviour pinned by the trimming tests). -/
def trim_whitespace (s : String) : String :=
  String.intercalate " " (wordsAux [] s.data)

/-- Modelled from the spec: an explicit trimmed/notrimmed modifier wins,
otherwise the environment policy ext.i18n.trimmed decides. -/
def effectiveTrimmed (policy : Bool) (head : TransHead) : Bool :=
  head.trimmed.getD policy

/-- Modelled from the spec: rendering of the collected message of a
localization block, applying trimming when effective. -/
def render_trans_message (policy : Bool) (head : TransHead) (msg : String) : String :=
  if effectiveTrimmed policy head then trim_whitespace msg else msg

/-- C10: a bare trimmed name in the tag head enables the trimming mode (also
forced by the environment policy when no modifier is present), under which
the message is stripped and internal whitespace runs collapse to one space,
while without it the message is kept verbatim; and a trimmed name directly
followed by the assignment operator is an ordinary variable binding, not the
modifier, so no trimming happens. -/
theorem trans_trimmed_modifier_semantics :
    parseTransHead [HTok.nameTok "trimmed"] = .ok ⟨some true, []⟩
    ∧ parseTransHead [HTok.nameTok "trimmed", HTok.assignTok, HTok.strTok "world"]
        = .ok ⟨none, [("trimmed", TransExpr.constE "world")]⟩
    ∧ (∀ (policy : Bool) (vars : List (String × TransExpr)) (msg : String),
        render_trans_message policy ⟨some true, vars⟩ msg = trim_whitespace msg)
    ∧ (∀ (vars : List (String × TransExpr)) (msg : String),
        render_trans_message false ⟨none, vars⟩ msg = msg
        ∧ render_trans_message true ⟨none, vars⟩ msg = trim_whitespace msg)
    ∧ trim_whitespace "  hello\n  world  " = "hello world"
    ∧ render_trans_message false ⟨none, [("trimmed", TransExpr.constE "world")]⟩
        "  hello\n  world  " = "  hello\n  world  " := by
  refine ⟨rfl, rfl, ?_, ?_, by decide, by decide⟩
  · intro policy vars msg
    simp [render_trans_message, effectiveTrimmed]
  · intro vars msg
    exact ⟨by simp [render_trans_message, effectiveTrimmed],
           by simp [render_trans_message, effectiveTrimmed]⟩

/-! ## Extension registry ordering (spec sections 3 and 4.2) -/

/-- A lexer token: kind, value and source line (spec section 3, Token). -/
structure Token where
  lineno : Nat
  type : String
  value : String
deriving DecidableEq

/-- Modelled from the spec: an extension descriptor with its identifier,
declared integer priority and its preprocess and stream-filter hooks
(spec section 3, Extension descriptor; the ext module is absent from src). -/
structure ExtensionDescr where
  identifier : String
  priority : Nat
  preprocessHook : String → String
  streamHook : List Token → List Token

/-- Modelled from the spec: the environment as the holder of the registered
extensions (the environment module is absent from src). -/
structure Environment where
  extensions : List ExtensionDescr

/-- Insert an extension into a priority-sorted list, before the first one of
strictly larger or equal priority later in registration order. -/
def ordered_insert (e : ExtensionDescr) : List ExtensionDescr → List ExtensionDescr
  | [] => [e]
  | x :: r => if e.priority ≤ x.priority then e :: x :: r else x :: ordered_insert e r

/-- Stable sort of extensions by ascending declared priority. -/
def sort_by_priority : List ExtensionDescr → List ExtensionDescr
  | [] => []
  | x :: r => ordered_insert x (sort_by_priority r)

/-- Modelled from the spec: iterating the registered extensions sorted by
ascending priority (Environment.iter_extensions is absent from src). -/
def iter_extensions (env : Environment) : List ExtensionDescr :=
  sort_by_priority env.extensions

/-- Modelled from the spec: raw-source preprocessing applies every extension
hook in iteration order, before lexing (spec section 4.2). -/
def preprocess_all (env : Environment) (source : String) : String :=
  (iter_extensions env).foldl (fun s e => e.preprocessHook s) source

/-- Modelled from the spec: token-stream filtering applies every extension
hook in iteration order, after lexing and before parsing (spec section 4.2). -/
def filter_stream_all (env : Environment) (toks : List Token) : List Token :=
  (iter_extensions env).foldl (fun t e => e.streamHook t) toks

theorem ordered_insert_perm (e : ExtensionDescr) (l : List ExtensionDescr) :
    (ordered_insert e l).Perm (e :: l) := by
  induction l with
  | nil => exact List.Perm.refl _
  | cons x r ih =>
      by_cases h : e.priority ≤ x.priority
      · simp [ordered_insert, h]
      · simp only [ordered_insert, if_neg h]
        exact (List.Perm.cons x ih).trans (List.Perm.swap e x r)

theorem ordered_insert_pairwise (e : ExtensionDescr) (l : List ExtensionDescr)
    (h : l.Pairwise (fun a b => a.priority ≤ b.priority)) :
    (ordered_insert e l).Pairwise (fun a b => a.priority ≤ b.priority) := by
  induction l with
  | nil => simp [ordered_insert]
  | cons x r ih =>
      rw [List.pairwise_cons] at h
      by_cases hle : e.priority ≤ x.priority
      · rw [ordered_insert, if_pos hle, List.pairwise_cons]
        refine ⟨?_, List.pairwise_cons.2 h⟩
        intro b hb
        rcases List.mem_cons.1 hb with hb | hb
        · exact hb ▸ hle
        · exact le_trans hle (h.1 b hb)
      · rw [ordered_insert, if_neg hle, List.pairwise_cons]
        refine ⟨?_, ih h.2⟩
        intro b hb
        rcases List.mem_cons.1 ((ordered_insert_perm e r).mem_iff.1 hb) with hb | hb
        · subst hb; exact le_of_not_le hle
        · exact h.1 b hb

theorem sort_by_priority_perm (l : List ExtensionDescr) :
    (sort_by_priority l).Perm l := by
  induction l with
  | nil => exact List.Perm.refl _
  | cons x r ih =>
      exact (ordered_insert_perm x (sort_by_priority r)).trans (List.Perm.cons x ih)

theorem sort_by_priority_pairwise (l : List ExtensionDescr) :
    (sort_by_priority l).Pairwise (fun a b => a.priority ≤ b.priority) := by
  induction l with
  | nil => simp [sort_by_priority]
  | cons x r ih => exact ordered_insert_pairwise x (sort_by_priority r) ih

/-- C5: iterating an environment of registered extensions yields exactly the
registered extensions (a permutation) sorted by ascending declared priority,
lower values first; raw-source preprocessing and token-stream filtering both
fold their hooks over that same ordered list. -/
theorem iter_extensions_ascending_priority (env : Environment) :
    (iter_extensions env).Pairwise (fun a b => a.priority ≤ b.priority)
    ∧ (iter_extensions env).Perm env.extensions
    ∧ (∀ source : String, preprocess_all env source
        = (iter_extensions env).foldl (fun s e => e.preprocessHook s) source)
    ∧ (∀ toks : List Token, filter_stream_all env toks
        = (iter_extensions env).foldl (fun t e => e.streamHook t) toks) :=
  ⟨sort_by_priority_pairwise env.extensions,
   sort_by_priority_perm env.extensions,
   fun _ => rfl, fun _ => rfl⟩

/-! ## Extension re-binding across environment clones (spec sections 4.2 and 9) -/

/-- Modelled from the spec: an extension instance bound to one environment,
identified by its contributing class and the identity of the environment it
was instantiated for ("treat extension instances as values keyed by
environment identity", spec section 9). -/
structure BoundExtension where
  cls : Nat
  environment : Nat
deriving DecidableEq

/-- Modelled from the spec: an environment instance with its identity, the
registered extension classes, and the extension instances bound to it. -/
structure EnvInst where
  id : Nat
  extension_classes : List Nat
  extensions : List BoundExtension
deriving DecidableEq

/-- Instantiate one extension class for one environment. -/
def bind_extension (envId : Nat) (cls : Nat) : BoundExtension := ⟨cls, envId⟩

/-- Modelled from the spec: environment construction instantiates every
registered extension class bound to the new environment. -/
def mkEnvironment (id : Nat) (classes : List Nat) : EnvInst :=
  ⟨id, classes, classes.map (bind_extension id)⟩

/-- Modelled from the spec: cloning/overlaying an environment re-instantiates
every extension for the new environment instead of sharing the originals
(spec section 4.2, re-binding rule; Environment.overlay is absent from src). -/
def overlay (env : EnvInst) (newId : Nat) : EnvInst :=
  ⟨newId, env.extension_classes, env.extension_classes.map (bind_extension newId)⟩

/-- C6: every extension instance held by an environment, whether freshly
constructed or produced by overlay, is bound to exactly that environment;
and when an overlay gets a fresh identity, none of its extension instances
is shared with the original environment. -/
theorem extensions_bound_to_their_environment :
    (∀ (id : Nat) (classes : List Nat),
        ∀ e ∈ (mkEnvironment id classes).extensions,
          e.environment = (mkEnvironment id classes).id)
    ∧ (∀ (env : EnvInst) (newId : Nat),
        ∀ e ∈ (overlay env newId).extensions, e.environment = (overlay env newId).id)
    ∧ (∀ (env : EnvInst) (newId : Nat), newId ≠ env.id →
        (∀ e ∈ env.extensions, e.environment = env.id) →
        ∀ e ∈ (overlay env newId).extensions, e ∉ env.extensions) := by
  refine ⟨?_, ?_, ?_⟩
  · intro id classes e he
    rcases List.mem_map.1 he with ⟨c, _, rfl⟩
    rfl
  · intro env newId e he
    rcases List.mem_map.1 he with ⟨c, _, rfl⟩
    rfl
  · intro env newId hne hbound e he hmem
    rcases List.mem_map.1 he with ⟨c, _, rfl⟩
    exact hne (hbound _ hmem)

/-- Witness for C6: the overlay of a one-extension environment under a fresh
identity shares no extension instance with the original. -/
theorem extensions_bound_witness :
    (⟨5, 1⟩ : BoundExtension) ∉ (mkEnvironment 0 [5]).extensions :=
  extensions_bound_to_their_environment.2.2 (mkEnvironment 0 [5]) 1
    (by decide) (by decide) ⟨5, 1⟩ (by decide)

/-! ## Stream filters rewrite the token sequence between lexing and parsing -/

/-- Modelled from the spec: jinja2.lexer.count_newlines (absent from src),
the count of newline characters in a string (spec section 4.1, line
tracking). -/
def count_newlines (s : String) : Nat :=
  s.data.countP (fun c => c == Char.ofNat 10)

/-- Finds the first closing parenthesis in a character list, returning the
characters before it and the characters after it. -/
def splitAtParen : List Char → Option (List Char × List Char)
  | [] => none
  | c :: r =>
      if c = ')' then some ([], r)
      else (splitAtParen r).map (fun p => (c :: p.1, p.2))

/-- The lazy gettext pattern of the stream-filter test: the earliest
underscore-lparen opener followed by the shortest group up to the next
closing parenthesis; returns the text before the match, the group, and the
text after the match. -/
def findUnderParen : List Char → Option (List Char × List Char × List Char)
  | [] => none
  | '_' :: '(' :: r =>
      match splitAtParen r with
      | some (g, a) => some ([], g, a)
      | none => none
  | c :: rest =>
      (findUnderParen rest).map (fun t => (c :: t.1, t.2.1, t.2.2))

/-- The interpolation loop of StreamFilterExtension (tests/test_ext.py): each
match of the gettext pattern in a data token is replaced by the token
sequence variable_begin, name gettext, lparen, the matched string, rparen,
variable_end; line numbers advance by the newline count of the whole
original token value, as the test code does. -/
def interpolateAux (fullValue : String) : Nat → Nat → List Char → List Token
  | 0, _, _ => []
  | fuel + 1, lineno, rest =>
      match findUnderParen rest with
      | none => if rest.isEmpty then [] else [⟨lineno, "data", String.mk rest⟩]
      | some (before, grp, after) =>
          (if before.isEmpty then [] else [⟨lineno, "data", String.mk before⟩])
          ++ (let ln2 := lineno + count_newlines fullValue
              ⟨ln2, "variable_begin", ""⟩ :: ⟨ln2, "name", "gettext"⟩ ::
              ⟨ln2, "lparen", ""⟩ :: ⟨ln2, "string", String.mk grp⟩ ::
              ⟨ln2, "rparen", ""⟩ :: ⟨ln2, "variable_end", ""⟩ ::
              interpolateAux fullValue fuel ln2 after)

/-- StreamFilterExtension.interpolate from tests/test_ext.py. -/
def interpolate (t : Token) : List Token :=
  interpolateAux t.value (t.value.length + 1) t.lineno t.value.data

/-- StreamFilterExtension.filter_stream from tests/test_ext.py: data tokens
are interpolated, all other tokens pass through unchanged. -/
def filter_stream (toks : List Token) : List Token :=
  (toks.map (fun t => if t.type = "data" then interpolate t else [t])).flatten

/-- Modelled from the spec: lexing a source without any template delimiters
yields a single literal-data token (spec section 4.1; the lexer module is
absent from src). -/
def lex_data (source : String) : List Token :=
  [⟨1, "data", source⟩]

/-- A parsed output node of the mini-grammar the filtered stream must fit:
literal data or a one-argument gettext call. -/
inductive ONode where
  | dataN (s : String)
  | callGettext (arg : String)
deriving DecidableEq

/-- Modelled from the spec: the parser consuming the filtered token stream: a
data token becomes literal output; a variable expression must be the balanced
sequence variable_begin, name gettext, lparen, string, rparen, variable_end,
otherwise the parse fails with a structural SyntaxError (spec section 4.2). -/
def parse_stream : List Token → Except TransErr (List ONode)
  | [] => .ok []
  | t :: rest =>
      if t.type = "data" then
        match parse_stream rest with
        | .ok ns => .ok (.dataN t.value :: ns)
        | .error e => .error e
      else if t.type = "variable_begin" then
        match rest with
        | ⟨_, "name", fn⟩ :: ⟨_, "lparen", _⟩ :: ⟨_, "string", s⟩ ::
            ⟨_, "rparen", _⟩ :: ⟨_, "variable_end", _⟩ :: r2 =>
            if fn = "gettext" then
              match parse_stream r2 with
              | .ok ns => .ok (.callGettext s :: ns)
              | .error e => .error e
            else .error (.synErr ("unknown callable in variable expression: " ++ fn))
        | _ => .error (.synErr "unbalanced variable expression in token stream")
      else .error (.synErr ("unexpected token of kind " ++ t.type))

/-- Evaluating the parsed nodes against a gettext callable. -/
def eval_stream (gettextF : String → String) : List ONode → String
  | [] => ""
  | .dataN s :: r => s ++ eval_stream gettextF r
  | .callGettext a :: r => gettextF a ++ eval_stream gettextF r

/-- ASCII upper-casing of one character (the upper-casing gettext callable
the stream-filter test installs). -/
def upper_ascii (c : Char) : Char :=
  if 97 ≤ c.toNat ∧ c.toNat ≤ 122 then Char.ofNat (c.toNat - 32) else c

/-- ASCII upper-casing of a string. -/
def str_upper (s : String) : String := String.mk (s.data.map upper_ascii)

/-- Rendering a delimiter-free source through the filter chain: lex, stream
filter, parse, evaluate. -/
def render_with_filter (gettextF : String → String) (source : String) :
    Except TransErr String :=
  match parse_stream (filter_stream (lex_data source)) with
  | .ok ns => .ok (eval_stream gettextF ns)
  | .error e => .error e

/-- C7: the stream filter receives the lexed token sequence and the parser
consumes its replacement: a data token holding the gettext pattern is split
into data plus the injected variable_begin, name, lparen, string, rparen,
variable_end tokens, and the rendered output carries the evaluated call in
place of the matched text: under an upper-casing gettext the test source
renders to the test's expected output. -/
theorem stream_filter_injects_tokens :
    (filter_stream (lex_data "Foo _(bar) Baz")).map Token.type
      = ["data", "variable_begin", "name", "lparen", "string",
         "rparen", "variable_end", "data"]
    ∧ (filter_stream (lex_data "Foo _(bar) Baz")).map Token.value
      = ["Foo ", "", "gettext", "", "bar", "", "", " Baz"]
    ∧ render_with_filter str_upper "Foo _(bar) Baz" = .ok "Foo BAR Baz" := by
  refine ⟨by decide, by decide, ?_⟩
  show Except.ok ("Foo " ++ (str_upper "bar" ++ (" Baz" ++ ""))) = Except.ok "Foo BAR Baz"
  have : "Foo " ++ (str_upper "bar" ++ (" Baz" ++ "")) = "Foo BAR Baz" := by decide
  rw [this]

/-! ## BalancedToks sources compile; rendering is a pure function (spec sections 4.3 and 8) -/

/-- Modelled from the spec: a statement-level token of the core grammar:
literal data, an expression output, a conditional opener with its condition
name, its closing keyword, or an undeclared control keyword (the parser
module is absent from src). -/
inductive CTok where
  | textTok (s : String)
  | varTok (n : String)
  | ifOpen (c : String)
  | endifTok
  | unknownTag (n : String)
deriving DecidableEq

/-- Modelled from the spec: a node of the syntax tree for that grammar. -/
inductive CNode where
  | outText (s : String)
  | outVar (n : String)
  | cond (c : String) (body : List CNode)

/-- Modelled from the spec: the recursive-descent statement parser: a body is
a sequence of literal-output, expression-output and conditional nodes until
end-of-stream or a terminator keyword (spec section 4.3), with explicit fuel
standing in for the recursion; an undeclared control keyword is a
SyntaxError-kind failure. -/
def parse_stmts : Nat → List CTok → Except TransErr (List CNode × List CTok)
  | 0, _ => .error (.synErr "parser ran out of fuel")
  | _ + 1, [] => .ok ([], [])
  | _ + 1, .endifTok :: r => .ok ([], .endifTok :: r)
  | f + 1, .textTok s :: r =>
      match parse_stmts f r with
      | .ok (ns, rest) => .ok (.outText s :: ns, rest)
      | .error e => .error e
  | f + 1, .varTok n :: r =>
      match parse_stmts f r with
      | .ok (ns, rest) => .ok (.outVar n :: ns, rest)
      | .error e => .error e
  | f + 1, .ifOpen c :: r =>
      match parse_stmts f r with
      | .error e => .error e
      | .ok (body, rest) =>
          match rest with
          | .endifTok :: r2 =>
              match parse_stmts f r2 with
              | .ok (ns, rest2) => .ok (.cond c body :: ns, rest2)
              | .error e => .error e
          | _ => .error (.synErr "expected endif")
  | _ + 1, .unknownTag n :: _ =>
      .error (.synErr ("unknown control keyword " ++ n))

/-- Modelled from the spec: compiling a token sequence: parse the whole
stream; leftover tokens (a stray terminator) are a SyntaxError-kind failure
and no artifact is produced (spec section 7). -/
def compile (toks : List CTok) : Except TransErr (List CNode) :=
  match parse_stmts (2 * toks.length + 1) toks with
  | .ok (ns, []) => .ok ns
  | .ok (_, _ :: _) => .error (.synErr "unexpected endif at top level")
  | .error e => .error e

/-- A token sequence with balanced conditional delimiters and no undeclared
control keywords. -/
inductive BalancedToks : List CTok → Prop
  | nil : BalancedToks []
  | text (s : String) (r : List CTok) : BalancedToks r → BalancedToks (.textTok s :: r)
  | var (n : String) (r : List CTok) : BalancedToks r → BalancedToks (.varTok n :: r)
  | cond (c : String) (body r : List CTok) :
      BalancedToks body → BalancedToks r →
      BalancedToks (.ifOpen c :: (body ++ .endifTok :: r))

/-- Rendering the compiled nodes against a data context; a name rendering to
the empty string counts as false in a condition. -/
def render_nodes (ctx : String → String) : List CNode → String
  | [] => ""
  | .outText s :: r => s ++ render_nodes ctx r
  | .outVar n :: r => ctx n ++ render_nodes ctx r
  | .cond c body :: r =>
      (if ctx c = "" then "" else render_nodes ctx body) ++ render_nodes ctx r

theorem parse_stmts_balanced (ts : List CTok) (hb : BalancedToks ts) :
    ∀ rest : List CTok, (rest = [] ∨ ∃ r2, rest = CTok.endifTok :: r2) →
    ∀ fuel : Nat, 2 * ts.length + 1 ≤ fuel →
    ∃ ns, parse_stmts fuel (ts ++ rest) = .ok (ns, rest) := by
  induction hb with
  | nil =>
      intro rest hrest fuel hfuel
      match fuel, hfuel with
      | f + 1, _ =>
        rcases hrest with h | ⟨r2, h⟩ <;> (subst h; exact ⟨[], rfl⟩)
  | text s r hr ih =>
      intro rest hrest fuel hfuel
      match fuel, hfuel with
      | f + 1, hf =>
        have hfr : 2 * r.length + 1 ≤ f := by
          simp only [List.length_cons] at hf; omega
        obtain ⟨ns, hns⟩ := ih rest hrest f hfr
        exact ⟨.outText s :: ns, by simp [parse_stmts, hns]⟩
  | var n r hr ih =>
      intro rest hrest fuel hfuel
      match fuel, hfuel with
      | f + 1, hf =>
        have hfr : 2 * r.length + 1 ≤ f := by
          simp only [List.length_cons] at hf; omega
        obtain ⟨ns, hns⟩ := ih rest hrest f hfr
        exact ⟨.outVar n :: ns, by simp [parse_stmts, hns]⟩
  | cond c body r hbody hr ihbody ihr =>
      intro rest hrest fuel hfuel
      match fuel, hfuel with
      | f + 1, hf =>
        have hlen : 2 * body.length + 1 ≤ f ∧ 2 * r.length + 1 ≤ f := by
          simp only [List.length_cons, List.length_append] at hf
          omega
        obtain ⟨ns1, h1⟩ := ihbody (CTok.endifTok :: (r ++ rest))
          (Or.inr ⟨r ++ rest, rfl⟩) f hlen.1
        obtain ⟨ns2, h2⟩ := ihr rest hrest f hlen.2
        refine ⟨.cond c ns1 :: ns2, ?_⟩
        have heq : (CTok.ifOpen c :: (body ++ CTok.endifTok :: r)) ++ rest
            = CTok.ifOpen c :: (body ++ (CTok.endifTok :: (r ++ rest))) := by
          simp
        rw [heq]
        simp [parse_stmts, h1, h2]

/-- C8: a token sequence with balanced delimiters and no undeclared control
keywords compiles successfully, and rendering is a deterministic pure
function of the compiled artifact and the data context: the compilation
function applied twice to the same source gives the same artifact, and the
renderings under any identical context are identical (in this embedding
compilation and rendering are functions, so determinism and freedom from
side effects are definitional). -/
theorem balanced_compiles_and_renders_deterministically
    (ts : List CTok) (hb : BalancedToks ts) :
    (∃ ns, compile ts = .ok ns)
    ∧ compile ts = compile ts
    ∧ ∀ ctx : String → String,
        (compile ts).map (render_nodes ctx) = (compile ts).map (render_nodes ctx) := by
  refine ⟨?_, rfl, fun _ => rfl⟩
  obtain ⟨ns, hns⟩ := parse_stmts_balanced ts hb [] (Or.inl rfl)
    (2 * ts.length + 1) (le_refl _)
  rw [List.append_nil] at hns
  exact ⟨ns, by rw [compile, hns]⟩

/-- Witness for C8 at a small balanced source with one conditional. -/
theorem balanced_compiles_witness :
    ∃ ns, compile [CTok.textTok "a", CTok.ifOpen "c", CTok.varTok "x",
        CTok.endifTok, CTok.textTok "b"] = .ok ns :=
  (balanced_compiles_and_renders_deterministically _
    (BalancedToks.text "a" _ (BalancedToks.cond "c" [CTok.varTok "x"] [CTok.textTok "b"]
      (BalancedToks.var "x" [] BalancedToks.nil) (BalancedToks.text "b" [] BalancedToks.nil)))).1
